import Mathlib

/-!
Shallow embedding of the telemetry core of the MongoDB performance monitor
backend (`src/api/services/metrics_sampler.py`, `metrics_rollup.py`,
`alerts_evaluator.py`).

Modelling conventions:
* timestamps (`datetime` values) are UTC epoch seconds as `Int`, matching the
  source's own `int(ts.timestamp())` bucket arithmetic;
* Python floats are modelled as `ℚ` (exact arithmetic on the same formulas);
* each MongoDB collection is a `List` of documents in insertion order;
  `insert_one` appends, `delete_many` filters, and `update_one` with
  `upsert=True` replaces the first key-match or appends;
* the per-instance blocking I/O (serverStatus fetches, instance listings) is
  passed in as explicit data, so a tick is a pure function of its inputs.
-/

set_option autoImplicit false

namespace PerfMon

/-! ## Data model -/

/-- Operation counters extracted from `serverStatus.opcounters`
(`_extract_server_status_fields`, metrics_sampler.py lines 16-31). -/
structure Opcounters where
  query : Int
  insert : Int
  update : Int
  delete : Int
  deriving DecidableEq, Repr

/-- Per-second operation rates, one per counter category
(`_diff_ops_per_sec`, metrics_sampler.py lines 34-47). -/
structure OpsRates where
  query : ℚ
  insert : ℚ
  update : ℚ
  delete : ℚ
  deriving DecidableEq, Repr

/-- One extracted serverStatus snapshot: the value stored in the sampler's
`last_counters` cache (metrics_sampler.py lines 16-31, 127-131). -/
structure Snapshot where
  connections : Int
  opcounters : Opcounters
  memResidentMB : ℚ
  deriving DecidableEq, Repr

/-- One document of the `metrics_samples` collection, as written by
`sampler_loop` (metrics_sampler.py lines 133-144).  `avgQueryMs` is an
optional field: the sampler never writes it (it is a documented placeholder),
but the alert evaluator reads it when present (`_compute_signal`). -/
structure SampleDoc where
  instanceId : String
  ts : Int
  connections : ℚ
  opcounters : Opcounters
  memResidentMB : ℚ
  opsPerSec : OpsRates
  avgQueryMs : Option ℚ
  deriving DecidableEq, Repr

/-- One document of the `metrics_rollups` collection
(`_build_rollup_docs`, metrics_rollup.py lines 43-78). -/
structure RollupDoc where
  instanceId : String
  bucket : Int
  metric : String
  value : ℚ
  count : ℕ
  min : ℚ
  max : ℚ
  sum : ℚ
  deriving DecidableEq, Repr

/-- The alert-rule fields read by `_evaluate_one_rule_instance` and
`_compute_signal` (alerts_evaluator.py). -/
structure AlertRule where
  type : String
  threshold : ℚ
  windowSec : Int
  severity : String
  deriving DecidableEq, Repr

/-- One document of the `alert_events` collection, as written by
`_evaluate_one_rule_instance` (alerts_evaluator.py lines 185-202).
The derived `title`/`message` strings are not modelled (they feed no
computation); `samplesCount` and `signalLabel` are the fields of the
`meta` sub-document. -/
structure EventDoc where
  ruleId : String
  instanceId : String
  eventType : String
  status : String
  severity : String
  value : Option ℚ
  threshold : ℚ
  windowSec : Int
  createdAt : Int
  samplesCount : ℕ
  signalLabel : String
  deriving DecidableEq, Repr

/-! ## Rollup engine (`metrics_rollup.py`) -/

/-- `_floor_to_bucket` (metrics_rollup.py lines 19-26): floor a timestamp to
the start of its bucket, in UTC epoch seconds.  Python's `//` is floor
division, i.e. `Int.fdiv`. -/
def floorToBucket (ts : Int) (bucketSeconds : Int) : Int :=
  let b := max 1 bucketSeconds
  (Int.fdiv ts b) * b

/-- `_ops_sum` (metrics_rollup.py lines 36-40 and alerts_evaluator.py
lines 26-27): the sum of all per-category rates of an `opsPerSec` document. -/
def opsSum (r : OpsRates) : ℚ :=
  r.query + r.insert + r.update + r.delete

/-- Python's `min` over a nonempty list (the empty case is guarded at every
call site, mirroring `min(vals) if vals else 0.0`). -/
def listMin : List ℚ → ℚ
  | [] => 0
  | x :: xs => xs.foldl min x

/-- Python's `max` over a nonempty list. -/
def listMax : List ℚ → ℚ
  | [] => 0
  | x :: xs => xs.foldl max x

/-- The `mk` closure of `_build_rollup_docs` (metrics_rollup.py lines 59-71):
one rollup document for one metric of one bucket. -/
def mkRollupDoc (instanceId : String) (bucket : Int) (metric : String)
    (vals : List ℚ) : RollupDoc :=
  { instanceId := instanceId
    bucket := bucket
    metric := metric
    value := vals.sum / ((max 1 vals.length : ℕ) : ℚ)
    count := vals.length
    min := if vals = [] then 0 else listMin vals
    max := if vals = [] then 0 else listMax vals
    sum := vals.sum }

/-- `_build_rollup_docs` (metrics_rollup.py lines 43-78): the three rollup
documents for one `(instanceId, bucket)` over its raw samples, or `[]` when
there are no samples. -/
def buildRollupDocs (instanceId : String) (bucket : Int)
    (samples : List SampleDoc) : List RollupDoc :=
  if samples = [] then []
  else
    [ mkRollupDoc instanceId bucket "connections_current"
        (samples.map (·.connections)),
      mkRollupDoc instanceId bucket "memory_mb"
        (samples.map (·.memResidentMB)),
      mkRollupDoc instanceId bucket "operations_per_sec"
        (samples.map (fun s => opsSum s.opsPerSec)) ]

/-- The upsert key of a rollup document: the filter
`{instanceId, bucket, metric}` of the `update_one` call
(metrics_rollup.py lines 144-149). -/
def keyOf (d : RollupDoc) : String × Int × String :=
  (d.instanceId, d.bucket, d.metric)

/-- `update_one(filter, {"$set": d}, upsert=True)` on `metrics_rollups`
(metrics_rollup.py lines 143-149): replace the first document matching the
key, or append the document when no match exists.  `$set` with the full
document rewrites every modelled field. -/
def upsertRollup : List RollupDoc → RollupDoc → List RollupDoc
  | [], d => [d]
  | r :: rest, d =>
    if keyOf r = keyOf d then d :: rest else r :: upsertRollup rest d

/-- Fold a list of rollup documents into the store, upserting one by one (the
`for d in docs` loop of `_rollup_instance_range`). -/
def upsertAll (store : List RollupDoc) (docs : List RollupDoc) : List RollupDoc :=
  docs.foldl upsertRollup store

/-- The raw samples fetched for one bucket:
`find({"instanceId": iid, "ts": {"$gte": b, "$lt": b_end}})`
(metrics_rollup.py lines 132-139). -/
def samplesInBucket (samples : List SampleDoc) (instanceId : String)
    (b bEnd : Int) : List SampleDoc :=
  samples.filter (fun s =>
    s.instanceId == instanceId && decide (b ≤ s.ts) && decide (s.ts < bEnd))

/-- `_rollup_instance_range` (metrics_rollup.py lines 112-154): walk the
buckets of `[startBucket, endExclusive)` in steps of
`max 1 bucketSeconds`; for each bucket with at least one raw sample, upsert
the three per-metric rollup documents. -/
def rollupInstanceRange (samples : List SampleDoc) (instanceId : String)
    (startBucket endExclusive bucketSeconds : Int)
    (store : List RollupDoc) : List RollupDoc :=
  if h : startBucket < endExclusive then
    let step : Int := max 1 bucketSeconds
    let bEnd : Int := startBucket + step
    let bs := samplesInBucket samples instanceId startBucket bEnd
    let store' := if bs = [] then store
      else upsertAll store (buildRollupDocs instanceId startBucket bs)
    rollupInstanceRange samples instanceId bEnd endExclusive bucketSeconds store'
  else store
termination_by (endExclusive - startBucket).toNat
decreasing_by
  simp_wf
  omega

/-- `_last_rollup_bucket` (metrics_rollup.py lines 99-109): the bucket of the
most recent rollup row for an instance (`find_one` sorted by `bucket`
descending), i.e. the maximal bucket value among that instance's rows. -/
def lastRollupBucket (store : List RollupDoc) (instanceId : String) : Option Int :=
  (store.filter (fun r => r.instanceId == instanceId)).foldl
    (fun acc r =>
      match acc with
      | none => some r.bucket
      | some b => some (max b r.bucket))
    none

/-- The per-instance body of `_rollup_tick` (metrics_rollup.py lines
169-186).  It computes the resume point and the end bucket, but the call at
line 183 passes six positional arguments to the five-parameter
`_rollup_instance_range` (the `bucket_seconds` argument is duplicated), so
Python raises `TypeError` before the range function runs; the
`except Exception` handler at lines 184-186 catches and logs it, leaving the
rollup store unchanged for this instance. -/
def rollupTickInstance (bucketSeconds now : Int)
    (store : List RollupDoc) (instanceId : String) : List RollupDoc :=
  let endExclusive := floorToBucket now bucketSeconds
  let startBucket :=
    match lastRollupBucket store instanceId with
    | none =>
      let lookback := max (bucketSeconds * 2) (2 * 3600)
      floorToBucket (now - lookback) bucketSeconds
    | some last => last + bucketSeconds
  if startBucket ≥ endExclusive then store
  else
    -- the six-argument call raises TypeError; the handler leaves the store as-is
    store

/-- `_rollup_tick` (metrics_rollup.py lines 157-186): a no-op when rollups
are disabled; otherwise iterate the per-instance body over the active
instance ids. -/
def rollupTick (enabled : Bool) (bucketSeconds now : Int)
    (instanceIds : List String) (store : List RollupDoc) : List RollupDoc :=
  if enabled then
    instanceIds.foldl (fun st iid => rollupTickInstance bucketSeconds now st iid) store
  else store

/-! ## Sampler (`metrics_sampler.py`) -/

/-- The all-zero rates returned by `_diff_ops_per_sec` when no previous
snapshot exists (metrics_sampler.py lines 35-36). -/
def zeroRates : OpsRates :=
  { query := 0, insert := 0, update := 0, delete := 0 }

/-- `_diff_ops_per_sec` (metrics_sampler.py lines 34-47): with no previous
snapshot, all rates are zero; otherwise each rate is
`max 0 ((cur − prev) / max 1 intervalSec)`. -/
def diffOpsPerSec (prev : Option Snapshot) (cur : Snapshot)
    (intervalSec : Int) : OpsRates :=
  match prev with
  | none => zeroRates
  | some p =>
    let rate : Int → Int → ℚ := fun c pv =>
      max 0 (((c : ℚ) - (pv : ℚ)) / max 1 (intervalSec : ℚ))
    { query := rate cur.opcounters.query p.opcounters.query
      insert := rate cur.opcounters.insert p.opcounters.insert
      update := rate cur.opcounters.update p.opcounters.update
      delete := rate cur.opcounters.delete p.opcounters.delete }

/-- Lookup in the sampler's `last_counters` dict (`last_counters.get`). -/
def cacheGet (cache : List (String × Snapshot)) (instanceId : String) :
    Option Snapshot :=
  match cache.find? (fun p => p.1 == instanceId) with
  | some p => some p.2
  | none => none

/-- Assignment into the sampler's `last_counters` dict
(`last_counters[instance_id] = cur`). -/
def cacheSet (cache : List (String × Snapshot)) (instanceId : String)
    (s : Snapshot) : List (String × Snapshot) :=
  if cache.any (fun p => p.1 == instanceId) then
    cache.map (fun p => if p.1 == instanceId then (instanceId, s) else p)
  else cache ++ [(instanceId, s)]

/-- The `sample_doc` literal written by `sampler_loop`
(metrics_sampler.py lines 133-144); `avgQueryMs` is a documented placeholder
the sampler does not write. -/
def sampleDocOf (instanceId : String) (now : Int) (cur : Snapshot)
    (ops : OpsRates) : SampleDoc :=
  { instanceId := instanceId
    ts := now
    connections := (cur.connections : ℚ)
    opcounters := cur.opcounters
    memResidentMB := cur.memResidentMB
    opsPerSec := ops
    avgQueryMs := none }

/-- The per-instance loop of one sampler tick (metrics_sampler.py lines
111-146).  Each list entry pairs an instance id with the outcome of its
`serverStatus` fetch; `none` models a failed fetch (the instance is skipped
for the tick). -/
def samplerProcessInstances (intervalSec now : Int)
    (statuses : List (String × Option Snapshot))
    (cache : List (String × Snapshot)) (store : List SampleDoc) :
    List (String × Snapshot) × List SampleDoc :=
  statuses.foldl
    (fun acc entry =>
      match entry.2 with
      | none => acc
      | some cur =>
        let prev := cacheGet acc.1 entry.1
        let ops := diffOpsPerSec prev cur intervalSec
        (cacheSet acc.1 entry.1 cur,
         acc.2 ++ [sampleDocOf entry.1 now cur ops]))
    (cache, store)

/-- `_apply_retention` (metrics_sampler.py lines 71-77):
`delete_many({"ts": {"$lt": now − retention_days}})` removes exactly the
samples strictly older than the cutoff. -/
def applyRetention (now retentionDays : Int) (store : List SampleDoc) :
    List SampleDoc :=
  store.filter (fun s => !(decide (s.ts < now - retentionDays * 86400)))

/-- One full sampler tick (metrics_sampler.py lines 97-148): process every
active instance, then prune by retention. -/
def samplerTick (intervalSec retentionDays now : Int)
    (statuses : List (String × Option Snapshot))
    (cache : List (String × Snapshot)) (store : List SampleDoc) :
    List (String × Snapshot) × List SampleDoc :=
  let r := samplerProcessInstances intervalSec now statuses cache store
  (r.1, applyRetention now retentionDays r.2)

/-! ## Alert evaluator (`alerts_evaluator.py`) -/

/-- `_fetch_samples_in_window` (alerts_evaluator.py lines 61-75): samples of
the instance with `window_start ≤ ts ≤ window_end` (both bounds inclusive:
the query uses `$gte`/`$lte`).  The source also sorts ascending by `ts`;
every quantity computed from the window (max, mean, length) is
order-independent, so the sort is not modelled. -/
def fetchSamplesInWindow (samples : List SampleDoc) (instanceId : String)
    (windowStart windowEnd : Int) : List SampleDoc :=
  samples.filter (fun s =>
    s.instanceId == instanceId && decide (windowStart ≤ s.ts) &&
      decide (s.ts ≤ windowEnd))

/-- `_compute_signal` (alerts_evaluator.py lines 78-105): the numeric signal
and its label for a rule over the windowed samples; `none` when the signal is
undefined. -/
def computeSignal (rule : AlertRule) (samples : List SampleDoc) :
    Option ℚ × String :=
  if samples = [] then (none, "no_data")
  else if rule.type = "high_connections" then
    (match samples.map (·.connections) with
     | [] => none
     | x :: xs => some (xs.foldl max x)
     , "connections")
  else if rule.type = "slow_operations_rate" then
    let vals := samples.map (fun s => opsSum s.opsPerSec)
    (some (vals.sum / ((max 1 vals.length : ℕ) : ℚ)), "ops_per_sec")
  else if rule.type = "high_ops_latency" then
    let vals := samples.filterMap (·.avgQueryMs)
    if vals = [] then (none, "avg_query_ms_missing")
    else (some (vals.sum / ((max 1 vals.length : ℕ) : ℚ)), "avg_query_ms")
  else (none, "unknown_rule_type")

/-- `_latest_event_for_pair` (alerts_evaluator.py lines 114-121): `find_one`
sorted by `createdAt` descending, i.e. an event of maximal `createdAt` among
the pair's events (ties keep the earliest inserted; Mongo leaves the order of
equal sort keys unspecified). -/
def latestEventForPair (events : List EventDoc) (instanceId ruleId : String) :
    Option EventDoc :=
  events.foldl
    (fun acc e =>
      if e.instanceId == instanceId && e.ruleId == ruleId then
        match acc with
        | none => some e
        | some a => if e.createdAt > a.createdAt then some e else acc
      else acc)
    none

/-- `_within_cooldown` (alerts_evaluator.py lines 124-130). -/
def withinCooldown (now : Int) (lastEvent : EventDoc) (cooldownSec : Int) : Bool :=
  if cooldownSec ≤ 0 then false
  else decide (now - lastEvent.createdAt < cooldownSec)

/-- The event document literal of `_evaluate_one_rule_instance`
(alerts_evaluator.py lines 185-201). -/
def mkEventDoc (rule : AlertRule) (ruleId instanceId : String)
    (desired : String) (v : ℚ) (label : String) (now : Int)
    (nSamples : ℕ) : EventDoc :=
  { ruleId := ruleId
    instanceId := instanceId
    eventType := if desired = "triggered" then "triggered" else "resolved"
    status := desired
    severity := rule.severity
    value := some v
    threshold := rule.threshold
    windowSec := rule.windowSec
    createdAt := now
    samplesCount := nSamples
    signalLabel := label }

/-- `_evaluate_one_rule_instance` (alerts_evaluator.py lines 152-202),
returning the `alert_events` collection after the call.  Note: the source
computes `last_status = (last or {}).get("status")`, which is Python `None`
(here `Option.none`) when the pair has no event yet, so the dedup comparison
`last_status == desired_status` is false in that case even when the desired
status is "ok". -/
def evaluateOneRuleInstance (samples : List SampleDoc)
    (events : List EventDoc) (rule : AlertRule) (ruleId instanceId : String)
    (now cooldownSec : Int) : List EventDoc :=
  let windowStart := now - max 1 rule.windowSec
  let ws := fetchSamplesInWindow samples instanceId windowStart now
  let sig := computeSignal rule ws
  match sig.1 with
  | none => events
  | some v =>
    let desired := if v > rule.threshold then "triggered" else "ok"
    let last := latestEventForPair events instanceId ruleId
    let lastStatus : Option String := last.map (·.status)
    if lastStatus = some desired then events
    else if (match last with
             | some e => withinCooldown now e cooldownSec
             | none => false) then events
    else events ++ [mkEventDoc rule ruleId instanceId desired v sig.2 now ws.length]

/-! ## Rollup store lemmas -/

/-- The first document of the store matching a key (the `update_one` match
order). -/
def firstMatch : List RollupDoc → String × Int × String → Option RollupDoc
  | [], _ => none
  | r :: rest, k => if keyOf r = k then some r else firstMatch rest k

/-- A rollup store with at most one document per (instanceId, bucket, metric)
key: the shape the keyed-upsert discipline maintains. -/
def nodupKeys (store : List RollupDoc) : Prop :=
  (store.map keyOf).Nodup

theorem mem_upsertRollup {st : List RollupDoc} {d r : RollupDoc}
    (h : r ∈ upsertRollup st d) : r ∈ st ∨ r = d := by
  induction st with
  | nil => simpa [upsertRollup] using h
  | cons a rest ih =>
    rw [upsertRollup] at h
    by_cases hk : keyOf a = keyOf d
    · rw [if_pos hk] at h
      rcases List.mem_cons.mp h with h | h
      · exact Or.inr h
      · exact Or.inl (List.mem_cons_of_mem a h)
    · rw [if_neg hk] at h
      rcases List.mem_cons.mp h with h | h
      · exact Or.inl (h ▸ List.mem_cons_self a rest)
      · rcases ih h with h | h
        · exact Or.inl (List.mem_cons_of_mem a h)
        · exact Or.inr h

theorem firstMatch_upsert_self (st : List RollupDoc) (d : RollupDoc) :
    firstMatch (upsertRollup st d) (keyOf d) = some d := by
  induction st with
  | nil => simp [upsertRollup, firstMatch]
  | cons a rest ih =>
    by_cases hk : keyOf a = keyOf d
    · rw [upsertRollup, if_pos hk, firstMatch, if_pos rfl]
    · rw [upsertRollup, if_neg hk, firstMatch, if_neg hk]
      exact ih

theorem firstMatch_upsert_other (st : List RollupDoc) (d : RollupDoc)
    (k : String × Int × String) (h : keyOf d ≠ k) :
    firstMatch (upsertRollup st d) k = firstMatch st k := by
  induction st with
  | nil => simp [upsertRollup, firstMatch, h]
  | cons a rest ih =>
    by_cases hk : keyOf a = keyOf d
    · rw [upsertRollup, if_pos hk, firstMatch, if_neg h, firstMatch,
        if_neg (hk ▸ h)]
    · rw [upsertRollup, if_neg hk, firstMatch, firstMatch]
      by_cases hak : keyOf a = k
      · rw [if_pos hak, if_pos hak]
      · rw [if_neg hak, if_neg hak]
        exact ih

theorem upsertRollup_eq_of_firstMatch {st : List RollupDoc} {d : RollupDoc}
    (h : firstMatch st (keyOf d) = some d) : upsertRollup st d = st := by
  induction st with
  | nil => simp [firstMatch] at h
  | cons a rest ih =>
    rw [firstMatch] at h
    by_cases hk : keyOf a = keyOf d
    · rw [if_pos hk] at h
      rw [upsertRollup, if_pos hk, Option.some_inj.mp h]
    · rw [if_neg hk] at h
      rw [upsertRollup, if_neg hk, ih h]

theorem mem_keys_upsert {st : List RollupDoc} {d : RollupDoc}
    {k : String × Int × String} :
    k ∈ (upsertRollup st d).map keyOf ↔ k ∈ st.map keyOf ∨ k = keyOf d := by
  induction st with
  | nil => simp [upsertRollup, eq_comm]
  | cons a rest ih =>
    by_cases hk : keyOf a = keyOf d
    · rw [upsertRollup, if_pos hk]
      simp [hk, eq_comm, or_comm]
    · rw [upsertRollup, if_neg hk]
      simp only [List.map_cons, List.mem_cons, ih]
      tauto

theorem nodupKeys_upsert {st : List RollupDoc} {d : RollupDoc}
    (h : nodupKeys st) : nodupKeys (upsertRollup st d) := by
  induction st with
  | nil => simp [nodupKeys, upsertRollup]
  | cons a rest ih =>
    rw [nodupKeys, List.map_cons, List.nodup_cons] at h
    by_cases hk : keyOf a = keyOf d
    · rw [nodupKeys, upsertRollup, if_pos hk, List.map_cons, List.nodup_cons]
      exact ⟨hk ▸ h.1, h.2⟩
    · rw [nodupKeys, upsertRollup, if_neg hk, List.map_cons, List.nodup_cons]
      refine ⟨fun hmem => ?_, ih h.2⟩
      rcases mem_keys_upsert.mp hmem with hmem | hmem
      · exact h.1 hmem
      · exact hk hmem

theorem upsertAll_append (st : List RollupDoc) (D1 D2 : List RollupDoc) :
    upsertAll st (D1 ++ D2) = upsertAll (upsertAll st D1) D2 :=
  List.foldl_append _ _ _ _

theorem mem_upsertAll {st D : List RollupDoc} {r : RollupDoc}
    (h : r ∈ upsertAll st D) : r ∈ st ∨ r ∈ D := by
  induction D generalizing st with
  | nil => exact Or.inl h
  | cons d rest ih =>
    rcases ih h with h | h
    · rcases mem_upsertRollup h with h | h
      · exact Or.inl h
      · exact Or.inr (h ▸ List.mem_cons_self d rest)
    · exact Or.inr (List.mem_cons_of_mem d h)

theorem firstMatch_upsertAll_of_not_mem (st D : List RollupDoc)
    (k : String × Int × String) (h : k ∉ D.map keyOf) :
    firstMatch (upsertAll st D) k = firstMatch st k := by
  induction D generalizing st with
  | nil => rfl
  | cons d rest ih =>
    rw [List.map_cons, List.mem_cons, not_or] at h
    have hstep : upsertAll st (d :: rest) = upsertAll (upsertRollup st d) rest := rfl
    rw [hstep, ih _ h.2, firstMatch_upsert_other st d k (Ne.symm h.1)]

theorem nodupKeys_upsertAll {st : List RollupDoc} (D : List RollupDoc)
    (h : nodupKeys st) : nodupKeys (upsertAll st D) := by
  induction D generalizing st with
  | nil => exact h
  | cons d rest ih => exact ih (nodupKeys_upsert h)

theorem firstMatch_upsertAll_self {D : List RollupDoc}
    (hnd : (D.map keyOf).Nodup) {d : RollupDoc} (hd : d ∈ D)
    (st : List RollupDoc) :
    firstMatch (upsertAll st D) (keyOf d) = some d := by
  induction D generalizing st with
  | nil => cases hd
  | cons a rest ih =>
    rw [List.map_cons, List.nodup_cons] at hnd
    have hstep : upsertAll st (a :: rest) = upsertAll (upsertRollup st a) rest := rfl
    rcases List.mem_cons.mp hd with hd | hd
    · subst hd
      rw [hstep, firstMatch_upsertAll_of_not_mem _ _ _ hnd.1]
      exact firstMatch_upsert_self st d
    · rw [hstep]
      exact ih hnd.2 hd _

theorem upsertAll_eq_of_firstMatch {D : List RollupDoc}
    {st : List RollupDoc} (h : ∀ d ∈ D, firstMatch st (keyOf d) = some d) :
    upsertAll st D = st := by
  induction D with
  | nil => rfl
  | cons d rest ih =>
    have hstep : upsertAll st (d :: rest) = upsertAll (upsertRollup st d) rest := rfl
    rw [hstep, upsertRollup_eq_of_firstMatch (h d (List.mem_cons_self d rest))]
    exact ih fun a ha => h a (List.mem_cons_of_mem d ha)

theorem upsertAll_idem {D : List RollupDoc} (hnd : (D.map keyOf).Nodup)
    (st : List RollupDoc) :
    upsertAll (upsertAll st D) D = upsertAll st D :=
  upsertAll_eq_of_firstMatch fun d hd => firstMatch_upsertAll_self hnd hd st

/-! ## The bucket walk as a pure document list -/

/-- The rollup documents produced for a single bucket of
`_rollup_instance_range`: none when the bucket holds no raw sample,
otherwise the three per-metric documents. -/
def bucketDocs (samples : List SampleDoc) (instanceId : String)
    (b bEnd : Int) : List RollupDoc :=
  let bs := samplesInBucket samples instanceId b bEnd
  if bs = [] then [] else buildRollupDocs instanceId b bs

/-- All rollup documents produced by the bucket walk of
`_rollup_instance_range` over `[startBucket, endExclusive)`, in write
order.  The documents depend only on the raw samples, not on the rollup
store being written to. -/
def allRollupDocs (samples : List SampleDoc) (instanceId : String)
    (startBucket endExclusive bucketSeconds : Int) : List RollupDoc :=
  if h : startBucket < endExclusive then
    bucketDocs samples instanceId startBucket (startBucket + max 1 bucketSeconds) ++
      allRollupDocs samples instanceId (startBucket + max 1 bucketSeconds)
        endExclusive bucketSeconds
  else []
termination_by (endExclusive - startBucket).toNat
decreasing_by
  simp_wf
  omega

theorem rollupInstanceRange_eq_upsertAll_aux (samples : List SampleDoc)
    (instanceId : String) (bucketSeconds : Int) :
    ∀ (n : ℕ) (b e : Int), (e - b).toNat ≤ n → ∀ store : List RollupDoc,
      rollupInstanceRange samples instanceId b e bucketSeconds store =
        upsertAll store (allRollupDocs samples instanceId b e bucketSeconds) := by
  intro n
  induction n with
  | zero =>
    intro b e hn store
    have hbe : ¬ b < e := by omega
    rw [rollupInstanceRange, allRollupDocs, dif_neg hbe, dif_neg hbe]
    rfl
  | succ n ih =>
    intro b e hn store
    by_cases hbe : b < e
    · rw [rollupInstanceRange, allRollupDocs, dif_pos hbe, dif_pos hbe]
      have hstep : (1 : Int) ≤ max 1 bucketSeconds := le_max_left _ _
      have hrec := ih (b + max 1 bucketSeconds) e (by omega)
      simp only [bucketDocs]
      rw [hrec, upsertAll_append]
      by_cases hbs : samplesInBucket samples instanceId b
          (b + max 1 bucketSeconds) = []
      · rw [if_pos hbs, if_pos hbs]
        rfl
      · rw [if_neg hbs, if_neg hbs]
    · rw [rollupInstanceRange, allRollupDocs, dif_neg hbe, dif_neg hbe]
      rfl

theorem rollupInstanceRange_eq_upsertAll (samples : List SampleDoc)
    (instanceId : String) (b e bucketSeconds : Int) (store : List RollupDoc) :
    rollupInstanceRange samples instanceId b e bucketSeconds store =
      upsertAll store (allRollupDocs samples instanceId b e bucketSeconds) :=
  rollupInstanceRange_eq_upsertAll_aux samples instanceId bucketSeconds
    (e - b).toNat b e le_rfl store

@[simp]
theorem keyOf_mkRollupDoc (instanceId : String) (b : Int) (m : String)
    (vals : List ℚ) : keyOf (mkRollupDoc instanceId b m vals) = (instanceId, b, m) :=
  rfl

@[simp]
theorem bucket_mkRollupDoc (instanceId : String) (b : Int) (m : String)
    (vals : List ℚ) : (mkRollupDoc instanceId b m vals).bucket = b :=
  rfl

@[simp]
theorem instanceId_mkRollupDoc (instanceId : String) (b : Int) (m : String)
    (vals : List ℚ) : (mkRollupDoc instanceId b m vals).instanceId = instanceId :=
  rfl

@[simp]
theorem metric_mkRollupDoc (instanceId : String) (b : Int) (m : String)
    (vals : List ℚ) : (mkRollupDoc instanceId b m vals).metric = m :=
  rfl

theorem bucket_of_mem_buildRollupDocs {instanceId : String} {b : Int}
    {ss : List SampleDoc} {d : RollupDoc} (h : d ∈ buildRollupDocs instanceId b ss) :
    d.bucket = b := by
  rw [buildRollupDocs] at h
  by_cases hss : ss = []
  · rw [if_pos hss] at h
    cases h
  · rw [if_neg hss] at h
    simp only [List.mem_cons, List.not_mem_nil, or_false] at h
    rcases h with h | h | h <;> rw [h] <;> rfl

theorem bucket_of_mem_bucketDocs {samples : List SampleDoc}
    {instanceId : String} {b bEnd : Int} {d : RollupDoc}
    (h : d ∈ bucketDocs samples instanceId b bEnd) : d.bucket = b := by
  simp only [bucketDocs] at h
  by_cases hbs : samplesInBucket samples instanceId b bEnd = []
  · rw [if_pos hbs] at h
    cases h
  · rw [if_neg hbs] at h
    exact bucket_of_mem_buildRollupDocs h

theorem keys_nodup_bucketDocs (samples : List SampleDoc)
    (instanceId : String) (b bEnd : Int) :
    ((bucketDocs samples instanceId b bEnd).map keyOf).Nodup := by
  simp only [bucketDocs]
  by_cases hbs : samplesInBucket samples instanceId b bEnd = []
  · rw [if_pos hbs]
    simp
  · rw [if_neg hbs, buildRollupDocs, if_neg hbs]
    simp [List.nodup_cons, Prod.ext_iff]

theorem mem_allRollupDocs_bucket_aux (samples : List SampleDoc)
    (instanceId : String) (bucketSeconds : Int) :
    ∀ (n : ℕ) (b e : Int), (e - b).toNat ≤ n →
      ∀ d ∈ allRollupDocs samples instanceId b e bucketSeconds,
        b ≤ d.bucket ∧ d.bucket < e := by
  intro n
  induction n with
  | zero =>
    intro b e hn d hd
    have hbe : ¬ b < e := by omega
    rw [allRollupDocs, dif_neg hbe] at hd
    cases hd
  | succ n ih =>
    intro b e hn d hd
    by_cases hbe : b < e
    · rw [allRollupDocs, dif_pos hbe] at hd
      have hstep : (1 : Int) ≤ max 1 bucketSeconds := le_max_left _ _
      rcases List.mem_append.mp hd with hd | hd
      · have := bucket_of_mem_bucketDocs hd
        omega
      · have := ih (b + max 1 bucketSeconds) e (by omega) d hd
        omega
    · rw [allRollupDocs, dif_neg hbe] at hd
      cases hd

theorem keys_nodup_allRollupDocs_aux (samples : List SampleDoc)
    (instanceId : String) (bucketSeconds : Int) :
    ∀ (n : ℕ) (b e : Int), (e - b).toNat ≤ n →
      ((allRollupDocs samples instanceId b e bucketSeconds).map keyOf).Nodup := by
  intro n
  induction n with
  | zero =>
    intro b e hn
    have hbe : ¬ b < e := by omega
    rw [allRollupDocs, dif_neg hbe]
    simp
  | succ n ih =>
    intro b e hn
    by_cases hbe : b < e
    · rw [allRollupDocs, dif_pos hbe]
      have hstep : (1 : Int) ≤ max 1 bucketSeconds := le_max_left _ _
      rw [List.map_append, List.nodup_append]
      refine ⟨keys_nodup_bucketDocs _ _ _ _, ih (b + max 1 bucketSeconds) e (by omega), ?_⟩
      intro k hk1 hk2
      rcases List.mem_map.mp hk1 with ⟨d1, hd1, hkd1⟩
      rcases List.mem_map.mp hk2 with ⟨d2, hd2, hkd2⟩
      have hb1 : d1.bucket = b := bucket_of_mem_bucketDocs hd1
      have hb2 := mem_allRollupDocs_bucket_aux samples instanceId bucketSeconds
        n (b + max 1 bucketSeconds) e (by omega) d2 hd2
      have hks : keyOf d1 = keyOf d2 := by rw [hkd1, hkd2]
      have hbb : d1.bucket = d2.bucket := by
        have := congrArg (fun p => p.2.1) hks
        simpa [keyOf] using this
      omega
    · rw [allRollupDocs, dif_neg hbe]
      simp

theorem keys_nodup_allRollupDocs (samples : List SampleDoc)
    (instanceId : String) (b e bucketSeconds : Int) :
    ((allRollupDocs samples instanceId b e bucketSeconds).map keyOf).Nodup :=
  keys_nodup_allRollupDocs_aux samples instanceId bucketSeconds
    (e - b).toNat b e le_rfl

theorem rollupTickInstance_eq (bucketSeconds now : Int)
    (store : List RollupDoc) (instanceId : String) :
    rollupTickInstance bucketSeconds now store instanceId = store :=
  ite_self store

theorem rollupTick_eq (enabled : Bool) (bucketSeconds now : Int)
    (instanceIds : List String) (store : List RollupDoc) :
    rollupTick enabled bucketSeconds now instanceIds store = store := by
  rw [rollupTick]
  split
  · induction instanceIds with
    | nil => rfl
    | cons i rest ih =>
      rw [List.foldl_cons, rollupTickInstance_eq]
      exact ih
  · rfl

theorem floorToBucket_bounds (ts bucketSeconds : Int) :
    floorToBucket ts bucketSeconds ≤ ts ∧
      ts < floorToBucket ts bucketSeconds + max 1 bucketSeconds := by
  have hb : (0 : Int) < max 1 bucketSeconds := by
    have := le_max_left (1 : Int) bucketSeconds
    omega
  simp only [floorToBucket]
  rw [Int.fdiv_eq_ediv _ hb.le]
  have h1 := Int.ediv_add_emod ts (max 1 bucketSeconds)
  have h2 := Int.emod_nonneg ts hb.ne'
  have h3 := Int.emod_lt_of_pos ts hb
  constructor <;> nlinarith [h1, h2, h3]

/-- C6: re-running the bucket rollup of `_rollup_instance_range` over the
same raw samples is the identity on the rollup store produced by the first
run — the same rows with the same average/min/max/sum/count values, no
duplicate `(instance, bucket, metric)` rows introduced, and no count ever
incremented by the re-run; moreover a store without duplicate keys keeps
that shape. -/
theorem c6_rollup_idempotent (samples : List SampleDoc) (instanceId : String)
    (b e bucketSeconds : Int) (store : List RollupDoc) :
    rollupInstanceRange samples instanceId b e bucketSeconds
        (rollupInstanceRange samples instanceId b e bucketSeconds store) =
      rollupInstanceRange samples instanceId b e bucketSeconds store ∧
    (nodupKeys store →
      nodupKeys (rollupInstanceRange samples instanceId b e bucketSeconds store)) := by
  constructor
  · rw [rollupInstanceRange_eq_upsertAll, rollupInstanceRange_eq_upsertAll]
    exact upsertAll_idem
      (keys_nodup_allRollupDocs samples instanceId b e bucketSeconds) store
  · intro h
    rw [rollupInstanceRange_eq_upsertAll]
    exact nodupKeys_upsertAll _ h

/-- A raw sample sitting in the bucket `[60, 120)` of instance `i1`, used to
exercise the rollup and alert paths on concrete data. -/
def sampleDocA : SampleDoc :=
  { instanceId := "i1", ts := 70, connections := 4, opcounters := ⟨1, 0, 0, 0⟩,
    memResidentMB := 8, opsPerSec := ⟨1, 0, 0, 0⟩, avgQueryMs := none }

theorem c6_rollup_idempotent_witness :
    rollupInstanceRange [sampleDocA] "i1" 60 120 60
        (rollupInstanceRange [sampleDocA] "i1" 60 120 60 []) =
      rollupInstanceRange [sampleDocA] "i1" 60 120 60 [] ∧
    nodupKeys (rollupInstanceRange [sampleDocA] "i1" 60 120 60 []) :=
  ⟨(c6_rollup_idempotent [sampleDocA] "i1" 60 120 60 []).1,
   (c6_rollup_idempotent [sampleDocA] "i1" 60 120 60 []).2 (by simp [nodupKeys])⟩

/-- C7: no rollup row for the in-progress bucket `floor(now / B) * B` ever
exists after the work of a rollup tick, where the bucket start is floor
division on UTC epoch seconds: rows written by the bucket walk with the
`end_exclusive = _floor_to_bucket(now)` bound that `_rollup_tick` computes
all lie in strictly earlier buckets, a full `_rollup_tick` adds no row at
all, and `floor(now / B) * B` is indeed the start of the bucket
containing `now`. -/
theorem c7_inprogress_bucket_never_rolled_up (samples : List SampleDoc)
    (instanceId : String) (startBucket bucketSeconds now : Int)
    (store : List RollupDoc) (enabled : Bool) (instanceIds : List String)
    (h : ∀ r ∈ store, r.bucket ≠ floorToBucket now bucketSeconds) :
    (∀ r ∈ rollupInstanceRange samples instanceId startBucket
        (floorToBucket now bucketSeconds) bucketSeconds store,
        r.bucket ≠ floorToBucket now bucketSeconds) ∧
    (∀ r ∈ rollupTick enabled bucketSeconds now instanceIds store,
        r.bucket ≠ floorToBucket now bucketSeconds) ∧
    floorToBucket now bucketSeconds ≤ now ∧
    now < floorToBucket now bucketSeconds + max 1 bucketSeconds := by
  refine ⟨?_, ?_, (floorToBucket_bounds now bucketSeconds).1,
    (floorToBucket_bounds now bucketSeconds).2⟩
  · intro r hr
    rw [rollupInstanceRange_eq_upsertAll] at hr
    rcases mem_upsertAll hr with hr | hr
    · exact h r hr
    · have := mem_allRollupDocs_bucket_aux samples instanceId bucketSeconds
        ((floorToBucket now bucketSeconds) - startBucket).toNat startBucket
        (floorToBucket now bucketSeconds) le_rfl r hr
      omega
  · intro r hr
    rw [rollupTick_eq] at hr
    exact h r hr

theorem c7_inprogress_bucket_never_rolled_up_witness :
    (∀ r ∈ rollupInstanceRange [sampleDocA] "i1" 60
        (floorToBucket 130 60) 60 [], r.bucket ≠ floorToBucket 130 60) ∧
    floorToBucket 130 60 ≤ 130 ∧ 130 < floorToBucket 130 60 + max 1 60 :=
  ⟨(c7_inprogress_bucket_never_rolled_up [sampleDocA] "i1" 60 60 130 [] true
      ["i1"] (by simp)).1,
   (c7_inprogress_bucket_never_rolled_up [sampleDocA] "i1" 60 60 130 [] true
      ["i1"] (by simp)).2.2⟩

/-- A pre-existing rollup row at bucket 0 of instance `i1`, making the
resume point of `_rollup_tick` concrete. -/
def rollupRowA : RollupDoc :=
  { instanceId := "i1", bucket := 0, metric := "connections_current",
    value := 2, count := 2, min := 1, max := 3, sum := 4 }

/-- C1 (code bug): with rollups enabled, an active instance, a resume point
at bucket 60, and a raw sample in the completed bucket `[60, 120)`,
`_rollup_tick` leaves the rollup store unchanged — no per-metric row for
bucket 60 exists after the tick — because the call at metrics_rollup.py
line 183 passes six positional arguments to the five-parameter
`_rollup_instance_range` and the resulting `TypeError` is swallowed by the
per-instance handler.  The same walk, invoked as `_rollup_instance_range`
itself with exactly the `start_bucket = last + B = 60`,
`end_exclusive = _floor_to_bucket(now) = 120` and `bucket_seconds = 60`
that `_rollup_tick` computes, would have upserted the three per-metric rows
for bucket 60, including a connections row with count 1, sum 4 and
average 4. -/
theorem c1_rollup_tick_writes_no_rows :
    rollupTick true 60 130 ["i1"] [rollupRowA] = [rollupRowA] ∧
    rollupRowA.bucket = 0 ∧
    lastRollupBucket [rollupRowA] "i1" = some 0 ∧
    floorToBucket 130 60 = 120 ∧
    rollupInstanceRange [sampleDocA] "i1" 60 120 60 [rollupRowA] =
      [rollupRowA,
       mkRollupDoc "i1" 60 "connections_current" [4],
       mkRollupDoc "i1" 60 "memory_mb" [8],
       mkRollupDoc "i1" 60 "operations_per_sec" [1]] ∧
    (mkRollupDoc "i1" 60 "connections_current" [4]).count = 1 ∧
    (mkRollupDoc "i1" 60 "connections_current" [4]).sum = 4 ∧
    (mkRollupDoc "i1" 60 "connections_current" [4]).value = 4 := by
  refine ⟨rollupTick_eq true 60 130 ["i1"] [rollupRowA], rfl, rfl, rfl,
    ?_, rfl, ?_, ?_⟩
  · rw [rollupInstanceRange]
    rw [dif_pos (by norm_num)]
    norm_num [samplesInBucket, sampleDocA]
    rw [rollupInstanceRange]
    rw [dif_neg (by norm_num)]
    simp [buildRollupDocs, upsertAll, upsertRollup, keyOf, rollupRowA,
      sampleDocA, opsSum]
  · rw [mkRollupDoc]
    norm_num
  · rw [mkRollupDoc]
    norm_num

/-! ## Sampler lemmas and claims -/

@[simp]
theorem ts_sampleDocOf (instanceId : String) (now : Int) (cur : Snapshot)
    (ops : OpsRates) : (sampleDocOf instanceId now cur ops).ts = now :=
  rfl

theorem cacheGet_cacheSet_self (cache : List (String × Snapshot))
    (instanceId : String) (s : Snapshot) :
    cacheGet (cacheSet cache instanceId s) instanceId = some s := by
  induction cache with
  | nil => simp [cacheGet, cacheSet, List.find?]
  | cons p rest ih =>
    by_cases hp : p.1 = instanceId
    · have hpb : (p.1 == instanceId) = true := beq_iff_eq.mpr hp
      simp [cacheSet, cacheGet, List.any_cons, hp, hpb, List.find?]
    · have hpb : (p.1 == instanceId) = false := beq_eq_false_iff_ne.mpr hp
      have hset : cacheSet (p :: rest) instanceId s =
          p :: cacheSet rest instanceId s := by
        by_cases ha : rest.any (fun q => q.1 == instanceId) <;>
          simp [cacheSet, List.any_cons, hp, hpb, ha]
      rw [hset]
      simpa [cacheGet, List.find?, hpb] using ih

theorem samplerProcessInstances_singleton (intervalSec now : Int)
    (instanceId : String) (cur : Snapshot)
    (cache : List (String × Snapshot)) (store : List SampleDoc) :
    samplerProcessInstances intervalSec now [(instanceId, some cur)] cache store =
      (cacheSet cache instanceId cur,
       store ++ [sampleDocOf instanceId now cur
         (diffOpsPerSec (cacheGet cache instanceId) cur intervalSec)]) :=
  rfl

theorem samplerTick_singleton (intervalSec retentionDays now : Int)
    (instanceId : String) (cur : Snapshot)
    (cache : List (String × Snapshot)) (store : List SampleDoc) :
    samplerTick intervalSec retentionDays now [(instanceId, some cur)] cache store =
      (cacheSet cache instanceId cur,
       applyRetention now retentionDays
         (store ++ [sampleDocOf instanceId now cur
            (diffOpsPerSec (cacheGet cache instanceId) cur intervalSec)])) :=
  rfl

/-- C9: after the retention prune that ends a sampler tick, a sample is in
the store exactly when it survived the tick's insert phase and its timestamp
is at or after `now − retention_days`; equivalently, the prune deletes
exactly the samples with `ts < now − retention_days`. -/
theorem c9_retention_prunes_exactly_old_samples
    (intervalSec retentionDays now : Int)
    (statuses : List (String × Option Snapshot))
    (cache : List (String × Snapshot)) (store : List SampleDoc)
    (s : SampleDoc) :
    s ∈ (samplerTick intervalSec retentionDays now statuses cache store).2 ↔
      s ∈ (samplerProcessInstances intervalSec now statuses cache store).2 ∧
        now - retentionDays * 86400 ≤ s.ts := by
  simp [samplerTick, applyRetention, List.mem_filter, Int.not_lt]

/-- C8: an instance with no previous counter snapshot in the sampler cache
gets a sample whose per-second rate is zero in every operation category;
the rates come from `_diff_ops_per_sec(None, ...)`. -/
theorem c8_first_sample_zero_rates (intervalSec now : Int)
    (instanceId : String) (cur : Snapshot)
    (cache : List (String × Snapshot)) (store : List SampleDoc)
    (h : cacheGet cache instanceId = none) :
    (samplerProcessInstances intervalSec now [(instanceId, some cur)]
        cache store).2 =
      store ++ [sampleDocOf instanceId now cur zeroRates] ∧
    zeroRates = { query := 0, insert := 0, update := 0, delete := 0 } := by
  refine ⟨?_, rfl⟩
  rw [samplerProcessInstances_singleton, h]
  rfl

/-- A first snapshot of instance `i1`: 3 connections, 7 cumulative queries. -/
def snapshotA : Snapshot :=
  { connections := 3, opcounters := ⟨7, 0, 0, 0⟩, memResidentMB := 5 }

/-- A later snapshot of instance `i1`: the query counter has advanced by
100. -/
def snapshotB : Snapshot :=
  { connections := 3, opcounters := ⟨107, 0, 0, 0⟩, memResidentMB := 5 }

theorem c8_first_sample_zero_rates_witness :
    cacheGet [] "i1" = none ∧
    (samplerProcessInstances 10 100 [("i1", some snapshotA)] [] []).2 =
      [sampleDocOf "i1" 100 snapshotA zeroRates] :=
  ⟨rfl, (c8_first_sample_zero_rates 10 100 "i1" snapshotA [] [] rfl).1⟩

/-- C2 (amended): for two consecutive sampler ticks over the same instance,
the second persisted sample carries, for every operation category, the rate
`max 0 ((counter₂ − counter₁) / max 1 intervalSec)` where `intervalSec` is
the configured sampling interval — not the actual elapsed time `t2 − t1`;
the two agree exactly when the ticks are `intervalSec` apart. -/
theorem c2_rate_uses_configured_interval (intervalSec retentionDays t1 t2 : Int)
    (instanceId : String) (s1 s2 : Snapshot)
    (cache : List (String × Snapshot)) (store : List SampleDoc)
    (ht : t1 < t2) (hd : 0 ≤ retentionDays) :
    sampleDocOf instanceId t2 s2 (diffOpsPerSec (some s1) s2 intervalSec) ∈
      (samplerTick intervalSec retentionDays t2 [(instanceId, some s2)]
        (samplerTick intervalSec retentionDays t1 [(instanceId, some s1)]
          cache store).1
        (samplerTick intervalSec retentionDays t1 [(instanceId, some s1)]
          cache store).2).2 ∧
    (diffOpsPerSec (some s1) s2 intervalSec).query =
      max 0 (((s2.opcounters.query : ℚ) - (s1.opcounters.query : ℚ)) /
        max 1 (intervalSec : ℚ)) ∧
    (diffOpsPerSec (some s1) s2 intervalSec).insert =
      max 0 (((s2.opcounters.insert : ℚ) - (s1.opcounters.insert : ℚ)) /
        max 1 (intervalSec : ℚ)) ∧
    (diffOpsPerSec (some s1) s2 intervalSec).update =
      max 0 (((s2.opcounters.update : ℚ) - (s1.opcounters.update : ℚ)) /
        max 1 (intervalSec : ℚ)) ∧
    (diffOpsPerSec (some s1) s2 intervalSec).delete =
      max 0 (((s2.opcounters.delete : ℚ) - (s1.opcounters.delete : ℚ)) /
        max 1 (intervalSec : ℚ)) := by
  refine ⟨?_, rfl, rfl, rfl, rfl⟩
  rw [samplerTick_singleton, samplerTick_singleton, cacheGet_cacheSet_self]
  simp only [applyRetention, List.mem_filter, List.mem_append,
    List.mem_singleton, ts_sampleDocOf, Bool.not_eq_true', decide_eq_false_iff_not,
    Int.not_lt]
  exact ⟨by tauto, by omega⟩

theorem c2_rate_uses_configured_interval_witness :
    (0 : Int) < 20 ∧ (0 : Int) ≤ 1 ∧
    sampleDocOf "i1" 20 snapshotB (diffOpsPerSec (some snapshotA) snapshotB 10) ∈
      (samplerTick 10 1 20 [("i1", some snapshotB)]
        (samplerTick 10 1 0 [("i1", some snapshotA)] [] []).1
        (samplerTick 10 1 0 [("i1", some snapshotA)] [] []).2).2 :=
  ⟨by decide, by decide,
   (c2_rate_uses_configured_interval 10 1 0 20 "i1" snapshotA snapshotB [] []
      (by decide) (by decide)).1⟩

/-- Two consecutive sampler ticks over a single instance, starting from an
empty cache and store: tick 1 at `t1` sees snapshot `s1`, tick 2 at `t2`
sees snapshot `s2`; the result is the persisted sample store after tick 2. -/
def samplerTwoTicks (intervalSec retentionDays t1 t2 : Int) (instanceId : String)
    (s1 s2 : Snapshot) : List SampleDoc :=
  let r1 := samplerTick intervalSec retentionDays t1 [(instanceId, some s1)] [] []
  (samplerTick intervalSec retentionDays t2 [(instanceId, some s2)] r1.1 r1.2).2

/-- C2 (counterexample to the claim as stated): with the configured sampling
interval 10 s but consecutive ticks 20 s apart (t1 = 0, t2 = 20) and a query
counter increase of 100, the persisted second sample carries query rate
100 / 10 = 10, while the claim's `(counter(t2) − counter(t1)) / (t2 − t1)`
clamped to ≥ 0 is 5. -/
theorem c2_rate_denominator_counterexample :
    (samplerTwoTicks 10 1 0 20 "i1" snapshotA snapshotB).map
        (fun d => (d.ts, d.opsPerSec.query)) = [(0, 0), (20, 10)] ∧
    max 0 (((snapshotB.opcounters.query : ℚ) - (snapshotA.opcounters.query : ℚ)) /
        ((20 : ℚ) - 0)) = 5 ∧
    (10 : ℚ) ≠ 5 := by
  refine ⟨?_, ?_, by norm_num⟩
  · norm_num [samplerTwoTicks, samplerTick_singleton, applyRetention,
      cacheGet_cacheSet_self, sampleDocOf, diffOpsPerSec, zeroRates,
      snapshotA, snapshotB, cacheGet, cacheSet, List.find?, max_def]
  · norm_num [snapshotA, snapshotB, max_def]

/-! ## Alert evaluator lemmas and claims -/

theorem evaluateOneRuleInstance_eq_of_signal_some (samples : List SampleDoc)
    (events : List EventDoc) (rule : AlertRule) (ruleId instanceId : String)
    (now cooldownSec : Int) (v : ℚ)
    (h : (computeSignal rule (fetchSamplesInWindow samples instanceId
        (now - max 1 rule.windowSec) now)).1 = some v) :
    evaluateOneRuleInstance samples events rule ruleId instanceId
        now cooldownSec =
      (if (latestEventForPair events instanceId ruleId).map (·.status) =
          some (if v > rule.threshold then "triggered" else "ok") then events
       else if (match latestEventForPair events instanceId ruleId with
           | some e' => withinCooldown now e' cooldownSec
           | none => false) = true then events
       else events ++ [mkEventDoc rule ruleId instanceId
          (if v > rule.threshold then "triggered" else "ok") v
          (computeSignal rule (fetchSamplesInWindow samples instanceId
            (now - max 1 rule.windowSec) now)).2 now
          (fetchSamplesInWindow samples instanceId
            (now - max 1 rule.windowSec) now).length]) := by
  simp only [evaluateOneRuleInstance]
  rw [h]

theorem evaluateOneRuleInstance_eq_of_signal_none (samples : List SampleDoc)
    (events : List EventDoc) (rule : AlertRule) (ruleId instanceId : String)
    (now cooldownSec : Int)
    (h : (computeSignal rule (fetchSamplesInWindow samples instanceId
        (now - max 1 rule.windowSec) now)).1 = none) :
    evaluateOneRuleInstance samples events rule ruleId instanceId
      now cooldownSec = events := by
  simp only [evaluateOneRuleInstance]
  rw [h]

/-- C5: when the evaluation window holds zero samples, or the rule type is
`high_ops_latency` and every sample in the window lacks the `avgQueryMs`
field, the (rule, instance) pair is skipped this tick: the event store is
unchanged, hence the derived current status of the pair is unchanged. -/
theorem c5_undefined_signal_skips (samples : List SampleDoc)
    (events : List EventDoc) (rule : AlertRule) (ruleId instanceId : String)
    (now cooldownSec : Int)
    (h : fetchSamplesInWindow samples instanceId
        (now - max 1 rule.windowSec) now = [] ∨
      (rule.type = "high_ops_latency" ∧
        ∀ s ∈ fetchSamplesInWindow samples instanceId
          (now - max 1 rule.windowSec) now, s.avgQueryMs = none)) :
    evaluateOneRuleInstance samples events rule ruleId instanceId
        now cooldownSec = events ∧
    latestEventForPair (evaluateOneRuleInstance samples events rule ruleId
        instanceId now cooldownSec) instanceId ruleId =
      latestEventForPair events instanceId ruleId := by
  have hnone : (computeSignal rule (fetchSamplesInWindow samples instanceId
      (now - max 1 rule.windowSec) now)).1 = none := by
    rcases h with h | ⟨htype, habs⟩
    · rw [h]
      rfl
    · by_cases hws : fetchSamplesInWindow samples instanceId
          (now - max 1 rule.windowSec) now = []
      · rw [hws]
        rfl
      · have hfm : (fetchSamplesInWindow samples instanceId
            (now - max 1 rule.windowSec) now).filterMap (·.avgQueryMs) = [] :=
          List.filterMap_eq_nil_iff.mpr habs
        simp [computeSignal, hws, htype, hfm]
  have heq := evaluateOneRuleInstance_eq_of_signal_none samples events rule
    ruleId instanceId now cooldownSec hnone
  exact ⟨heq, by rw [heq]⟩

/-- A concrete `high_connections` rule: threshold 5 over a 60 s window. -/
def ruleA : AlertRule :=
  { type := "high_connections", threshold := 5, windowSec := 60,
    severity := "warning" }

/-- A sample of `i1` below `ruleA`'s threshold, inside the window of an
evaluation at `now = 100`. -/
def sampleLow : SampleDoc :=
  { instanceId := "i1", ts := 95, connections := 1, opcounters := ⟨0, 0, 0, 0⟩,
    memResidentMB := 2, opsPerSec := ⟨0, 0, 0, 0⟩, avgQueryMs := none }

/-- A sample of `i1` above `ruleA`'s threshold, inside the window of an
evaluation at `now = 100`. -/
def sampleHigh : SampleDoc :=
  { instanceId := "i1", ts := 95, connections := 10, opcounters := ⟨0, 0, 0, 0⟩,
    memResidentMB := 2, opsPerSec := ⟨0, 0, 0, 0⟩, avgQueryMs := none }

/-- An `ok` event for `(r1, i1)` created at 90, recent enough to be within a
30 s cooldown of an evaluation at `now = 100`. -/
def eventOkRecent : EventDoc :=
  { ruleId := "r1", instanceId := "i1", eventType := "resolved",
    status := "ok", severity := "warning", value := some 1, threshold := 5,
    windowSec := 60, createdAt := 90, samplesCount := 1,
    signalLabel := "connections" }

theorem c5_undefined_signal_skips_witness :
    fetchSamplesInWindow [] "i1" ((100 : Int) - max 1 ruleA.windowSec) 100 = [] ∧
    evaluateOneRuleInstance [] [eventOkRecent] ruleA "r1" "i1" 100 30 =
      [eventOkRecent] :=
  ⟨rfl, (c5_undefined_signal_skips [] [eventOkRecent] ruleA "r1" "i1" 100 30
    (Or.inl rfl)).1⟩

/-- C3: when the desired status of a (rule, instance) pair differs from the
status of its most recent event and that event is newer than
`now − cooldown_sec`, the tick appends no event — the transition (trigger or
resolve alike) is suppressed. -/
theorem c3_cooldown_suppresses_transition (samples : List SampleDoc)
    (events : List EventDoc) (rule : AlertRule) (ruleId instanceId : String)
    (now cooldownSec : Int) (v : ℚ) (e : EventDoc)
    (hv : (computeSignal rule (fetchSamplesInWindow samples instanceId
        (now - max 1 rule.windowSec) now)).1 = some v)
    (hlast : latestEventForPair events instanceId ruleId = some e)
    (hdiff : e.status ≠ (if v > rule.threshold then "triggered" else "ok"))
    (hcool : 0 < cooldownSec)
    (hrecent : now - e.createdAt < cooldownSec) :
    evaluateOneRuleInstance samples events rule ruleId instanceId
      now cooldownSec = events := by
  simp only [evaluateOneRuleInstance]
  rw [hv]
  simp only [hlast, Option.map_some', Option.some.injEq]
  rw [if_neg fun hc => hdiff hc]
  have hw : withinCooldown now e cooldownSec = true := by
    rw [withinCooldown, if_neg (by omega)]
    exact decide_eq_true hrecent
  rw [if_pos hw]

theorem c3_cooldown_suppresses_transition_witness :
    (computeSignal ruleA (fetchSamplesInWindow [sampleHigh] "i1"
        ((100 : Int) - max 1 ruleA.windowSec) 100)).1 = some 10 ∧
    latestEventForPair [eventOkRecent] "i1" "r1" = some eventOkRecent ∧
    eventOkRecent.status ≠
      (if (10 : ℚ) > ruleA.threshold then "triggered" else "ok") ∧
    (0 : Int) < 30 ∧ (100 : Int) - eventOkRecent.createdAt < 30 ∧
    evaluateOneRuleInstance [sampleHigh] [eventOkRecent] ruleA "r1" "i1"
      100 30 = [eventOkRecent] :=
  ⟨rfl, rfl, by decide, by decide, by decide,
   c3_cooldown_suppresses_transition [sampleHigh] [eventOkRecent] ruleA "r1"
     "i1" 100 30 10 eventOkRecent rfl rfl (by decide) (by decide) (by decide)⟩

/-- C4 (code bug): for a pair with no events at all (current status `ok` by
the documented default) and a desired status of `ok`, the evaluator still
appends an event: `_evaluate_one_rule_instance` computes
`last_status = (last or {}).get("status")`, which is `None` rather than
"ok" when no event exists, so the dedup comparison `None == "ok"` fails
and a spurious initial `resolved`/`ok` event is written even though the
status did not change. -/
theorem c4_first_ok_evaluation_appends_spurious_event :
    evaluateOneRuleInstance [sampleLow] [] ruleA "r1" "i1" 100 30 =
      [mkEventDoc ruleA "r1" "i1" "ok" 1 "connections" 100 1] ∧
    latestEventForPair [] "i1" "r1" = none ∧
    (mkEventDoc ruleA "r1" "i1" "ok" 1 "connections" 100 1).status = "ok" ∧
    (mkEventDoc ruleA "r1" "i1" "ok" 1 "connections" 100 1).eventType =
      "resolved" := by
  refine ⟨?_, rfl, rfl, rfl⟩
  rfl

/-- C10: every event the evaluator appends is internally consistent —
`eventType` is "triggered" exactly when `status` is "triggered" and
"resolved" exactly when `status` is "ok" — and carries a measured value,
the rule's threshold, window and severity, the evaluation timestamp as its
creation time, and the window's sample count. -/
theorem c10_event_doc_consistency (samples : List SampleDoc)
    (events : List EventDoc) (rule : AlertRule) (ruleId instanceId : String)
    (now cooldownSec : Int) (e : EventDoc)
    (he : e ∈ evaluateOneRuleInstance samples events rule ruleId instanceId
      now cooldownSec) :
    e ∈ events ∨
      ((e.eventType = "triggered" ↔ e.status = "triggered") ∧
       (e.eventType = "resolved" ↔ e.status = "ok") ∧
       e.value.isSome = true ∧
       e.threshold = rule.threshold ∧
       e.windowSec = rule.windowSec ∧
       e.severity = rule.severity ∧
       e.createdAt = now ∧
       e.samplesCount = (fetchSamplesInWindow samples instanceId
          (now - max 1 rule.windowSec) now).length) := by
  rcases h : (computeSignal rule (fetchSamplesInWindow samples instanceId
      (now - max 1 rule.windowSec) now)).1 with _ | v
  · rw [evaluateOneRuleInstance_eq_of_signal_none samples events rule ruleId
      instanceId now cooldownSec h] at he
    exact Or.inl he
  · rw [evaluateOneRuleInstance_eq_of_signal_some samples events rule ruleId
      instanceId now cooldownSec v h] at he
    by_cases h1 : (latestEventForPair events instanceId ruleId).map (·.status) =
        some (if v > rule.threshold then "triggered" else "ok")
    · rw [if_pos h1] at he
      exact Or.inl he
    · rw [if_neg h1] at he
      by_cases h2 : (match latestEventForPair events instanceId ruleId with
          | some e' => withinCooldown now e' cooldownSec
          | none => false) = true
      · rw [if_pos h2] at he
        exact Or.inl he
      · rw [if_neg h2] at he
        rcases List.mem_append.mp he with he | he
        · exact Or.inl he
        · right
          have he' := List.mem_singleton.mp he
          subst he'
          by_cases hv : v > rule.threshold
          · simp [mkEventDoc, if_pos hv]
          · simp [mkEventDoc, if_neg hv]

theorem c10_event_doc_consistency_witness :
    mkEventDoc ruleA "r1" "i1" "triggered" 10 "connections" 100 1 ∈
      evaluateOneRuleInstance [sampleHigh] [] ruleA "r1" "i1" 100 30 ∧
    ((mkEventDoc ruleA "r1" "i1" "triggered" 10 "connections" 100 1).eventType =
        "triggered" ↔
      (mkEventDoc ruleA "r1" "i1" "triggered" 10 "connections" 100 1).status =
        "triggered") :=
  ⟨by decide,
   ((c10_event_doc_consistency [sampleHigh] [] ruleA "r1" "i1" 100 30
      (mkEventDoc ruleA "r1" "i1" "triggered" 10 "connections" 100 1)
      (by decide)).resolve_left (by decide)).1⟩

end PerfMon
